import Mathlib

/-!
Verification of the Fiery / Google-Sheet print automation script
(`fiery_automation.py`) against its natural-language specification.

Strings are modelled as `List Char`; Python's `str.strip`, `str.replace`,
`str.upper` (ASCII range) and `str.split(' ')[0]` are given as explicit list
functions.  The script's side effects (Google-Sheets calls, Fiery HTTP calls,
the background cleanup thread) are modelled as event traces over oracles that
say whether each external call succeeds.
-/

namespace FieryAutomation

/-- The characters Python's `str.strip()` removes (ASCII whitespace). -/
def isPySpace (c : Char) : Bool :=
  c = ' ' || c = '\t' || c = '\n' || c = '\r' || c = Char.ofNat 11 || c = Char.ofNat 12

/-- Python `s.lstrip()` on the ASCII whitespace set. -/
def trimLeft (l : List Char) : List Char := l.dropWhile isPySpace

/-- Python `s.rstrip()` on the ASCII whitespace set. -/
def trimRight (l : List Char) : List Char := (l.reverse.dropWhile isPySpace).reverse

/-- Python `s.strip()`: drop leading and trailing whitespace. -/
def pyStrip (l : List Char) : List Char := trimRight (trimLeft l)

/-- Python `s.replace('#', '')`: remove every `'#'` character. -/
def removeHash (l : List Char) : List Char := l.filter (fun c => c ≠ '#')

/-- Python `str.upper` restricted to the ASCII range (all titles in play are
ASCII job numbers and labels). -/
def upperChar (c : Char) : Char :=
  if 97 ≤ c.toNat ∧ c.toNat ≤ 122 then Char.ofNat (c.toNat - 32) else c

/-- Python `s.upper()` character-wise. -/
def pyUpper (l : List Char) : List Char := l.map upperChar

/-- Python `s.split(' ')[0]`: the longest prefix free of the space character
(splitting happens on `' '` only, not on tabs or other whitespace). -/
def firstTokenSpace (l : List Char) : List Char := l.takeWhile (fun c => c ≠ ' ')

/-- Everything up to (not including) the first whitespace character. -/
def firstTokenWS (l : List Char) : List Char := l.takeWhile (fun c => !isPySpace c)

/-- Sheet-side key, `fiery_automation.py` line 414 applied to the raw cell:
`job_title_from_sheet.split(' ')[0].replace('#', '').strip().upper()`, where
`job_title_from_sheet` is the cell already stripped (line 403). -/
def normalizeSheet (s : List Char) : List Char :=
  pyUpper (pyStrip (removeHash (firstTokenSpace (pyStrip s))))

/-- Fiery-side key, lines 424 and 427-428 applied to the raw device title:
`fiery_job_title = title.strip()`, then
`cleaned = fiery_job_title.replace('#', '').strip().upper()` and
`first_word = cleaned.split(' ')[0] if cleaned else ""`. -/
def normalizeFiery (s : List Char) : List Char :=
  let cleaned := pyUpper (pyStrip (removeHash (pyStrip s)))
  if cleaned = [] then [] else firstTokenSpace cleaned

/-- Modelled from the spec: §3 NormalizedKey, "trim surrounding whitespace →
remove all `#` characters → uppercase → take the substring up to (not
including) the first whitespace character". -/
def normalizeSpec (s : List Char) : List Char :=
  firstTokenWS (pyUpper (removeHash (pyStrip s)))

/-- The Fiery-side normalization with its redundant empty-string guard
unfolded: trim → remove `'#'` → trim again → uppercase → first
`' '`-delimited token. -/
def normalizeAmended (s : List Char) : List Char :=
  firstTokenSpace (pyUpper (pyStrip (removeHash (pyStrip s))))

/-! ## Integer parsing (`int(copies_from_sheet)`, line 441) -/

/-- Numeric value of a list of decimal digits. -/
def digitsVal (l : List Char) : Nat := l.foldl (fun a c => 10 * a + (c.toNat - 48)) 0

/-- After a leading digit, Python `int` accepts further digits with single
underscores allowed between digits. -/
def digitsTail : List Char → Bool
  | [] => true
  | c :: rest =>
    if c = '_' then
      match rest with
      | [] => false
      | d :: rest2 => d.isDigit && digitsTail rest2
    else c.isDigit && digitsTail rest

/-- A valid digit group for Python `int`: nonempty, starts with a digit,
underscores only between digits. -/
def digitsOk : List Char → Bool
  | [] => false
  | c :: rest => c.isDigit && digitsTail rest

/-- Python `int(s)` on ASCII input: strip whitespace, optional sign, decimal
digits (`ValueError` is `none`).  Zero and negative values parse fine — the
script performs no positivity check. -/
def pyInt (l : List Char) : Option Int :=
  let t := pyStrip l
  match t with
  | '+' :: rest =>
    if digitsOk rest then some (digitsVal (rest.filter (fun c => c ≠ '_'))) else none
  | '-' :: rest =>
    if digitsOk rest then some (-(digitsVal (rest.filter (fun c => c ≠ '_')) : Int)) else none
  | _ => if digitsOk t then some (digitsVal (t.filter (fun c => c ≠ '_'))) else none

/-! ## Held jobs and the matching loop (lines 418-437) -/

/-- One device job in the held queue: `fiery_job.get("id")` and
`fiery_job.get("title", "")`. -/
structure QueueJob where
  id : Nat
  title : List Char
deriving DecidableEq, Repr

/-- The matching loop (lines 422-437): walk the snapshot in order, keep every
job whose Fiery-normalized title equals the sheet key; never `break`, no
deduplication. -/
def collectMatches (key : List Char) : List QueueJob → List QueueJob
  | [] => []
  | j :: rest =>
    if normalizeFiery j.title = key then j :: collectMatches key rest
    else collectMatches key rest

/-- `get_held_jobs` (lines 240-270): on any request error the exception is
logged and the function falls through to `return []`; an empty `items` list
also yields `[]`. -/
def get_held_jobs (resp : Option (List QueueJob)) : List QueueJob :=
  match resp with
  | none => []
  | some l => l

/-- `change_job_copies_and_print` (lines 272-318): the copies `PUT` must
succeed and echo the job id, and then the print `PUT` must succeed; any
failure or exception returns `False`. -/
def change_job_copies_and_print (setCopiesOk : Nat → Int → Bool) (printOk : Nat → Bool)
    (jobId : Nat) (n : Int) : Bool :=
  setCopiesOk jobId n && printOk jobId

/-! ## Per-row outcome state machine (lines 402-472) -/

/-- Terminal outcome of one sheet row. -/
inductive RowOutcome where
  | skipped
  | notFound
  | invalidQuantity
  | processed (numCopies : Int) (allOk : Bool) (perJob : List (List Char × Bool))
deriving DecidableEq, Repr

/-- The body of the row loop (lines 402-472) up to the sheet write, as a
function of the print-action oracle: strip the two cells, skip if either is
empty, collect matches, then (only when matches exist) parse the copy count
and attempt every matched job in order. -/
def processRow (act : Nat → Int → Bool) (held : List QueueJob)
    (title copies : List Char) : RowOutcome :=
  let t := pyStrip title
  let c := pyStrip copies
  if t = [] ∨ c = [] then .skipped
  else
    let m := collectMatches (normalizeSheet title) held
    if m = [] then .notFound
    else
      match pyInt c with
      | none => .invalidQuantity
      | some n =>
        let results := m.map (fun j => (j.title, act j.id n))
        .processed n (results.all (fun r => r.2)) results

/-! ## Rendering of status and notes (lines 450-472) -/

/-- Decimal rendering of a natural number; the `fuel` argument only makes
the division recursion structural (`n + 1` steps always suffice, since each
step divides by 10). -/
def natCharsAux : Nat → Nat → List Char
  | 0, _ => []
  | fuel + 1, n =>
    if n < 10 then [Char.ofNat (48 + n)]
    else natCharsAux fuel (n / 10) ++ [Char.ofNat (48 + n % 10)]

/-- Decimal rendering of a natural number. -/
def natChars (n : Nat) : List Char := natCharsAux (n + 1) n

/-- Python `str` of an `int` (as interpolated into the notes f-strings). -/
def intChars (i : Int) : List Char :=
  if i < 0 then '-' :: natChars i.natAbs else natChars i.toNat

/-- One notes entry per matched job (lines 450 and 453):
`'<title>' Qty: <n>` on success, `Failed to process '<title>'.` on failure. -/
def noteMsg (n : Int) (r : List Char × Bool) : List Char :=
  if r.2 then "'".toList ++ r.1 ++ "' Qty: ".toList ++ intChars n
  else "Failed to process '".toList ++ r.1 ++ "'.".toList

/-- The Result-Reporter mapping (lines 456-472): what (status, notes) pair is
written for a row outcome; `none` when nothing is written.  `strippedTitle`
is `job_title_from_sheet`, used by the Not-Found note. -/
def reportOf (strippedTitle : List Char) : RowOutcome → Option (List Char × List Char)
  | .skipped => none
  | .notFound =>
    some ("Not Found".toList,
      "No matching Fiery jobs found for '".toList ++ strippedTitle ++ "'".toList)
  | .invalidQuantity => some ("Error".toList, "Invalid 'Copies' value".toList)
  | .processed n allOk perJob =>
    some ((if allOk then "Printed".toList else "Error (Partial/Full Failure)".toList),
      "Processed ".toList ++ natChars perJob.length ++ " jobs: ".toList
        ++ List.intercalate "; ".toList (perJob.map (noteMsg n)))

/-! ## Trace model of `main()` (lines 321-486) -/

/-- One data row of the sheet, already projected onto the two cells the loop
reads: `row_dict.get("Job Title", "")` and `row_dict.get("Copies", "")`
(missing cells are `""`). -/
structure Row where
  title : List Char
  copies : List Char
deriving DecidableEq, Repr

/-- Externally observable calls of one run. -/
inductive Event where
  | fetchSheet (ok : Bool)
  | clearCols (statusCol notesCol : List Char) (ok : Bool)
  | login (ok : Bool)
  | fetchHeld
  | setCopies (id : Nat) (n : Int)
  | printJob (id : Nat)
  | writeRow (idx : Nat) (status notes : List Char)
deriving DecidableEq, Repr

/-- A call that reaches the Fiery device API. -/
def isDeviceEvent : Event → Bool
  | .login _ => true
  | .fetchHeld => true
  | .setCopies _ _ => true
  | .printJob _ => true
  | _ => false

/-- The loop body of `col_idx_to_letter`; the `fuel` argument only makes the
recursion structural (`idx + 1` steps always suffice, since
`idx / 26 - 1 < idx` whenever `idx ≥ 26`). -/
def colIdxToLetterAux : Nat → Nat → List Char
  | 0, _ => []
  | fuel + 1, idx =>
    if idx < 26 then [Char.ofNat (65 + idx % 26)]
    else colIdxToLetterAux fuel (idx / 26 - 1) ++ [Char.ofNat (65 + idx % 26)]

/-- `col_idx_to_letter` (lines 362-367): 0-based column index to the A1
column letter. -/
def col_idx_to_letter (idx : Nat) : List Char := colIdxToLetterAux (idx + 1) idx

/-- The header scan (lines 369-375): one pass over `headers`, assigning the
Status and Notes column letters whenever a header matches (a later duplicate
header overwrites an earlier one, as repeated assignment does). -/
def resolvePair (headers : List (List Char)) : Option (List Char) × Option (List Char) :=
  (headers.enum.foldl
    (fun acc p =>
      if p.2 = "Status".toList then (some (col_idx_to_letter p.1), acc.2)
      else if p.2 = "Notes".toList then (acc.1, some (col_idx_to_letter p.1))
      else acc)
    (none, none))

/-- Device calls made by `change_job_copies_and_print` for one job: the
copies `PUT` always happens; the print `PUT` only if the copies call
succeeded (the function returns early on failure). -/
def jobEvents (setCopiesOk : Nat → Int → Bool) (jobId : Nat) (n : Int) : List Event :=
  Event.setCopies jobId n :: (if setCopiesOk jobId n then [Event.printJob jobId] else [])

/-- Device calls of one row: nothing when skipped, not found, or the copy
count fails to parse; otherwise one `jobEvents` block per matched job, in
match order. -/
def rowDeviceEvents (setCopiesOk : Nat → Int → Bool) (held : List QueueJob)
    (title copies : List Char) : List Event :=
  let t := pyStrip title
  let c := pyStrip copies
  if t = [] ∨ c = [] then []
  else
    let m := collectMatches (normalizeSheet title) held
    if m = [] then []
    else
      match pyInt c with
      | none => []
      | some n => m.flatMap (fun j => jobEvents setCopiesOk j.id n)

/-- All events of one row at index `i`: its device calls followed by the
single sheet write the Result Reporter performs (if any). -/
def rowEvents (setCopiesOk : Nat → Int → Bool) (printOk : Nat → Bool)
    (held : List QueueJob) (i : Nat) (r : Row) : List Event :=
  rowDeviceEvents setCopiesOk held r.title r.copies ++
    (match reportOf (pyStrip r.title)
        (processRow (change_job_copies_and_print setCopiesOk printOk) held r.title r.copies) with
     | none => []
     | some sn => [Event.writeRow i sn.1 sn.2])

/-- The row loop (line 402), enumerating rows from index `k`. -/
def rowsEvents (setCopiesOk : Nat → Int → Bool) (printOk : Nat → Bool)
    (held : List QueueJob) (k : Nat) : List Row → List Event
  | [] => []
  | r :: rest =>
    rowEvents setCopiesOk printOk held k r ++ rowsEvents setCopiesOk printOk held (k + 1) rest

/-- Success/failure of the external collaborators for one run. -/
structure Env where
  /-- `get_google_sheet_data`: `none` models a failed fetch, otherwise the
  header row and the data rows. -/
  sheetData : Option (List (List Char) × List Row)
  /-- whether `clear_google_sheet_columns_full` succeeds -/
  clearOk : Bool
  /-- whether `fiery_login` authenticates -/
  loginOk : Bool
  /-- `get_held_jobs` HTTP outcome: `none` is a request error -/
  heldResp : Option (List QueueJob)
  /-- whether the copies `PUT` succeeds and echoes the job id -/
  setCopiesOk : Nat → Int → Bool
  /-- whether the print `PUT` succeeds -/
  printOk : Nat → Bool

/-- `main()` (lines 321-486) as an event trace plus a flag telling whether
control reached the end of the row loop (where the cleanup thread is
started).  Early `return`s: sheet fetch failure, missing Status/Notes
headers, initial clear failure, login failure. -/
def runMainFull (env : Env) : List Event × Bool :=
  match env.sheetData with
  | none => ([Event.fetchSheet false], false)
  | some (headers, rows) =>
    match resolvePair headers with
    | (some sCol, some nCol) =>
      if env.clearOk then
        if env.loginOk then
          (Event.fetchSheet true :: Event.clearCols sCol nCol true :: Event.login true ::
            Event.fetchHeld ::
            rowsEvents env.setCopiesOk env.printOk (get_held_jobs env.heldResp) 0 rows, true)
        else
          ([Event.fetchSheet true, Event.clearCols sCol nCol true, Event.login false], false)
      else ([Event.fetchSheet true, Event.clearCols sCol nCol false], false)
    | _ => ([Event.fetchSheet true], false)

/-- The trace of one run. -/
def runMain (env : Env) : List Event := (runMainFull env).1

/-! ## Deferred cleanup thread (lines 146-189, started at lines 476-484) -/

/-- `SHEET_NAME` (line 52). -/
def SHEET_NAME : List Char := "Print Jobs".toList

/-- `columns_to_clear` (line 477): the fixed transient columns. -/
def columns_to_clear : List (List Char) :=
  ["D".toList, "E".toList, "L".toList, "M".toList, "O".toList]

/-- Observable steps of the background thread. -/
inductive CEvent where
  | sleep (seconds : Nat)
  | acquireService (ok : Bool)
  | batchClear (ranges : List (List Char)) (ok : Bool)
deriving DecidableEq, Repr

/-- The open-ended A1 range `f'{sheet_name}!{col}2:{col}'` (line 171). -/
def clearRange (sheetName col : List Char) : List Char :=
  sheetName ++ "!".toList ++ col ++ "2:".toList ++ col

/-- The `batchClear` HTTP call: `ok = false` models a raised `HttpError`. -/
def batchClearCall (ok : Bool) : Except (List Char) Unit :=
  if ok then Except.ok () else Except.error "Google Sheets API error during delayed clearing".toList

/-- `clear_sheet_columns_after_delay_thread` (lines 146-189): sleep
`delay_minutes * 60` seconds, re-acquire a fresh sheets service (on failure
`return`), then `batchClear` the per-column open ranges, catching every
exception.  The returned `Except` is the thread function's own termination:
it is `ok` on every path because both failure modes are handled inside. -/
def clear_sheet_columns_after_delay_thread (acquireOk clearOk : Bool)
    (sheetName : List Char) (columnsToClear : List (List Char))
    (delayMinutes : Nat := 5) : Except (List Char) Unit × List CEvent :=
  let pre := [CEvent.sleep (delayMinutes * 60), CEvent.acquireService acquireOk]
  if acquireOk then
    let ranges := columnsToClear.map (clearRange sheetName)
    match batchClearCall clearOk with
    | Except.ok _ => (Except.ok (), pre ++ [CEvent.batchClear ranges true])
    | Except.error _ => (Except.ok (), pre ++ [CEvent.batchClear ranges false])
  else (Except.ok (), pre)

/-- The whole program: the main pass, and — only when the row loop completed —
the detached cleanup thread (line 479 passes the sheet name, the fixed column
list and a delay of 5 minutes). -/
def mainAndCleanup (env : Env) (acquireOk clearOk : Bool) :
    List Event × Option (Except (List Char) Unit × List CEvent) :=
  let m := runMainFull env
  (m.1,
    if m.2 then
      some (clear_sheet_columns_after_delay_thread acquireOk clearOk SHEET_NAME columns_to_clear 5)
    else none)

/-- The strings on which the amended claim C2 equates the two normalizations:
no `'#'` character and no whitespace other than the plain space. -/
def goodChars (l : List Char) : Bool :=
  l.all (fun c => (c ≠ '#') && (!isPySpace c || c = ' '))

/-- The successful initial clearing of the Status and Notes columns. -/
def isClearSuccess : Event → Bool
  | .clearCols _ _ true => true
  | _ => false

/-! ## General list lemmas for the trimming functions -/

theorem dropWhile_head_false {α : Type} {p : α → Bool} {l : List α} {c : α} {rest : List α}
    (h : l.dropWhile p = c :: rest) : p c = false := by
  induction l with
  | nil => simp [List.dropWhile] at h
  | cons a as ih =>
    rw [List.dropWhile_cons] at h
    by_cases hp : p a
    · rw [if_pos hp] at h
      exact ih h
    · rw [if_neg hp] at h
      cases h
      simpa using hp

theorem dropWhile_idem {α : Type} {p : α → Bool} (l : List α) :
    (l.dropWhile p).dropWhile p = l.dropWhile p := by
  cases h : l.dropWhile p with
  | nil => simp
  | cons c rest =>
    have hc := dropWhile_head_false h
    rw [List.dropWhile_cons, if_neg (by simp [hc])]

theorem dropWhile_all_false {α : Type} {p : α → Bool} {l : List α}
    (h : ∀ c ∈ l, p c = false) : l.dropWhile p = l := by
  cases l with
  | nil => rfl
  | cons a as =>
    rw [List.dropWhile_cons, if_neg (by simp [h a (List.mem_cons_self a as)])]

theorem trimLeft_sublist (l : List Char) : (trimLeft l).Sublist l :=
  List.dropWhile_sublist _

theorem trimRight_sublist (l : List Char) : (trimRight l).Sublist l := by
  have h := (List.dropWhile_sublist (l := l.reverse) isPySpace).reverse
  simpa [trimRight] using h

theorem pyStrip_sublist (l : List Char) : (pyStrip l).Sublist l :=
  (trimRight_sublist _).trans (trimLeft_sublist l)

theorem mem_of_mem_pyStrip {c : Char} {l : List Char} (h : c ∈ pyStrip l) : c ∈ l :=
  (pyStrip_sublist l).subset h

theorem trimRight_exists_append (l : List Char) :
    l = trimRight l ++ (l.reverse.takeWhile isPySpace).reverse := by
  have h := List.takeWhile_append_dropWhile isPySpace l.reverse
  conv_lhs => rw [← List.reverse_reverse l, ← h]
  rw [List.reverse_append]
  rfl

theorem trimRight_trimRight (l : List Char) : trimRight (trimRight l) = trimRight l := by
  simp [trimRight, List.reverse_reverse, dropWhile_idem]

theorem pyStrip_idem (l : List Char) : pyStrip (pyStrip l) = pyStrip l := by
  show trimRight (trimLeft (trimRight (trimLeft l))) = trimRight (trimLeft l)
  have key : trimLeft (trimRight (trimLeft l)) = trimRight (trimLeft l) := by
    cases h : trimRight (trimLeft l) with
    | nil => rfl
    | cons c rest =>
      have happ := trimRight_exists_append (trimLeft l)
      rw [h] at happ
      have hc : isPySpace c = false :=
        dropWhile_head_false (p := isPySpace) (l := l)
          (by simpa [trimLeft, List.cons_append] using happ)
      show List.dropWhile isPySpace (c :: rest) = c :: rest
      rw [List.dropWhile_cons, if_neg (by simp [hc])]
  rw [key, trimRight_trimRight]

theorem pyStrip_eq_self {l : List Char} (h : ∀ c ∈ l, isPySpace c = false) :
    pyStrip l = l := by
  show trimRight (trimLeft l) = l
  rw [trimLeft, dropWhile_all_false h, trimRight,
    dropWhile_all_false (fun c hc => h c (List.mem_reverse.mp hc)), List.reverse_reverse]

theorem upperChar_eq_space_iff (c : Char) : upperChar c = ' ' ↔ c = ' ' := by
  unfold upperChar
  split
  next h =>
    constructor
    · intro he
      have hv : Nat.isValidChar (c.toNat - 32) := Or.inl (by omega)
      have ht : (Char.ofNat (c.toNat - 32)).toNat = c.toNat - 32 := by
        unfold Char.ofNat
        rw [dif_pos hv]
        rfl
      rw [he] at ht
      have h32 : (' ' : Char).toNat = 32 := by decide
      rw [h32] at ht
      omega
    · intro he
      subst he
      exact absurd h (by decide)
  next h => exact Iff.rfl

theorem firstTokenSpace_pyUpper (l : List Char) :
    firstTokenSpace (pyUpper l) = pyUpper (firstTokenSpace l) := by
  show (l.map upperChar).takeWhile (fun c => c ≠ ' ') =
    (l.takeWhile (fun c => c ≠ ' ')).map upperChar
  rw [List.takeWhile_map]
  have hfun : ((fun c => decide (c ≠ ' ')) ∘ upperChar) = (fun c : Char => decide (c ≠ ' ')) := by
    funext c
    simp only [Function.comp_apply]
    exact decide_eq_decide.mpr (not_congr (upperChar_eq_space_iff c))
  rw [hfun]

theorem normalizeFiery_eq_amended (s : List Char) :
    normalizeFiery s = normalizeAmended s := by
  simp only [normalizeFiery, normalizeAmended]
  split
  next h => rw [h]; rfl
  next h => rfl

/-! ## Claim C1 — the normalization rule -/

/-- C1 counterexample: the spec's rule (trim → remove `#` → uppercase → cut at
the first *whitespace*) disagrees with the code's normalizations.  On `"# A"`
the code re-trims after removing `'#'` and yields `"A"` where the spec's rule
yields `""`; on `"A\tB"` the code splits on `' '` only and keeps the tab,
where the spec's rule cuts at the tab. -/
theorem c1_normalization_counterexample :
    normalizeFiery ("# A".toList) ≠ normalizeSpec ("# A".toList) ∧
    normalizeFiery ("A\tB".toList) ≠ normalizeSpec ("A\tB".toList) ∧
    normalizeSheet ("A\tB".toList) ≠ normalizeSpec ("A\tB".toList) := by
  refine ⟨by decide, by decide, by decide⟩

/-- C1 (amended): the device-side normalization is the pure total function
trim → remove all `'#'` → trim again → uppercase → take the substring up to
(not including) the first space character `' '` (not any whitespace); the
spec's concrete examples `normalize("#01983C Label") = "01983C"` and
`normalize("") = ""` hold, on the sheet side as well. -/
theorem c1_normalization_amended :
    (∀ s : List Char, normalizeFiery s = normalizeAmended s) ∧
    normalizeAmended ("#01983C Label".toList) = "01983C".toList ∧
    normalizeAmended ("".toList) = "".toList ∧
    normalizeSheet ("#01983C Label".toList) = "01983C".toList ∧
    normalizeSheet ("".toList) = "".toList :=
  ⟨normalizeFiery_eq_amended, by decide, by decide, by decide, by decide⟩

/-! ## Claim C2 — sheet-side and device-side keys -/

/-- C2 counterexample: the sheet-side function (split on `' '` first, then
remove `'#'`, strip, uppercase) and the Fiery-side function (remove `'#'`,
strip, uppercase, then split) differ on `"# A"`: the sheet side's first token
is `"#"`, which empties out, while the Fiery side removes `'#'` first and
finds `"A"`. -/
theorem c2_equivalence_counterexample :
    normalizeSheet ("# A".toList) = [] ∧
    normalizeFiery ("# A".toList) = ['A'] ∧
    normalizeSheet ("# A".toList) ≠ normalizeFiery ("# A".toList) := by
  refine ⟨by decide, by decide, by decide⟩

/-- C2 (amended): the two normalizations are not equal as functions, but they
agree on every string that contains no `'#'` character and no whitespace
other than the plain space `' '`. -/
theorem c2_equivalence_amended (s : List Char) (h : goodChars s = true) :
    normalizeSheet s = normalizeFiery s := by
  have hmem : ∀ c ∈ s, c ≠ '#' ∧ (isPySpace c = true → c = ' ') := by
    intro c hc
    have hb := List.all_eq_true.mp h c hc
    simp only [Bool.and_eq_true, Bool.or_eq_true, Bool.not_eq_true', decide_eq_true_eq] at hb
    refine ⟨hb.1, fun hw => ?_⟩
    rcases hb.2 with h1 | h1
    · rw [hw] at h1; cases h1
    · exact h1
  have memA : ∀ c ∈ firstTokenSpace (pyStrip s), c ∈ s := fun c hc =>
    mem_of_mem_pyStrip ((List.takeWhile_sublist _).subset hc)
  have noWsA : ∀ c ∈ firstTokenSpace (pyStrip s), isPySpace c = false := by
    intro c hc
    have hsp : ¬(c = ' ') := by
      have := List.mem_takeWhile_imp hc
      simpa using this
    by_cases hw : isPySpace c
    · exact absurd ((hmem c (memA c hc)).2 hw) hsp
    · simpa using hw
  have noHash : ∀ x : List Char, (∀ c ∈ x, c ∈ s) → removeHash x = x := by
    intro x hx
    rw [removeHash, List.filter_eq_self]
    intro a ha
    simpa using (hmem a (hx a ha)).1
  have hSheet : normalizeSheet s = pyUpper (firstTokenSpace (pyStrip s)) := by
    rw [normalizeSheet, noHash _ memA, pyStrip_eq_self noWsA]
  have hFiery : normalizeFiery s = pyUpper (firstTokenSpace (pyStrip s)) := by
    rw [normalizeFiery_eq_amended, normalizeAmended,
      noHash _ (fun c hc => mem_of_mem_pyStrip hc), pyStrip_idem, firstTokenSpace_pyUpper]
  rw [hSheet, hFiery]

/-- Witness for the amended C2 at a concrete title. -/
theorem c2_equivalence_amended_witness :
    goodChars ("4521 Brochure".toList) = true ∧
    normalizeSheet ("4521 Brochure".toList) = normalizeFiery ("4521 Brochure".toList) :=
  ⟨by decide, c2_equivalence_amended _ (by decide)⟩

/-! ## Claim C3 — the matcher -/

theorem collectMatches_sublist (key : List Char) (snapshot : List QueueJob) :
    (collectMatches key snapshot).Sublist snapshot := by
  induction snapshot with
  | nil => simp [collectMatches]
  | cons j rest ih =>
    rw [collectMatches]
    split
    · exact ih.cons₂ j
    · exact ih.cons j

theorem collectMatches_nil (key : List Char) : collectMatches key [] = [] := rfl

theorem collectMatches_count (key : List Char) (snapshot : List QueueJob) (j : QueueJob) :
    (collectMatches key snapshot).count j =
      if normalizeFiery j.title = key then snapshot.count j else 0 := by
  induction snapshot with
  | nil => simp [collectMatches]
  | cons a rest ih =>
    rw [collectMatches]
    by_cases ha : normalizeFiery a.title = key
    · rw [if_pos ha]
      by_cases hj : j = a
      · subst hj
        simp [List.count_cons, ih, ha]
      · simp [List.count_cons, ih, hj]
    · rw [if_neg ha]
      rw [ih]
      by_cases hj : j = a
      · subst hj
        simp [List.count_cons, ha]
      · simp [List.count_cons, hj]

/-- C3: the matcher returns exactly the jobs whose Fiery-normalized title
equals the row key — as a sublist of the snapshot (preserving iteration
order) whose multiplicity at every job equals the snapshot's (no
deduplication, duplicates each matched) — and the spec's no-prefix-matching
example holds: a row `"#01983 Flyer"` matches `"01983 - insert"` but not
`"01983C - cover"`; duplicate-titled jobs each get their own print attempt. -/
theorem c3_matcher_exact :
    (∀ (key : List Char) (snapshot : List QueueJob),
      (collectMatches key snapshot).Sublist snapshot) ∧
    (∀ (key : List Char) (snapshot : List QueueJob) (j : QueueJob),
      (collectMatches key snapshot).count j =
        if normalizeFiery j.title = key then snapshot.count j else 0) ∧
    collectMatches (normalizeSheet ("#01983 Flyer".toList))
      [⟨1, "01983C - cover".toList⟩, ⟨2, "01983 - insert".toList⟩] =
      [⟨2, "01983 - insert".toList⟩] ∧
    collectMatches (normalizeSheet ("#J1 Flyer".toList))
      [⟨1, "J1 a".toList⟩, ⟨2, "J1 a".toList⟩] =
      [⟨1, "J1 a".toList⟩, ⟨2, "J1 a".toList⟩] ∧
    processRow (fun _ _ => true) [⟨1, "J1 a".toList⟩, ⟨2, "J1 a".toList⟩]
      ("#J1 Flyer".toList) ("2".toList) =
      RowOutcome.processed 2 true [("J1 a".toList, true), ("J1 a".toList, true)] :=
  ⟨collectMatches_sublist, collectMatches_count, by decide, by decide, by decide⟩

/-! ## Claim C4 — quantity validation after matching -/

/-- C4 counterexample: the script does not validate positivity.  A row whose
copies cell is `"-3"` and which matches a held job is *not* given outcome
`InvalidQuantity`: `int("-3")` parses fine and the job is processed with -3
copies.  (Same for `"0"`.) -/
theorem c4_positivity_counterexample :
    pyInt ("-3".toList) = some (-3) ∧
    processRow (fun _ _ => true) [⟨1, "J1".toList⟩] ("J1".toList) ("-3".toList) =
      RowOutcome.processed (-3) true [("J1".toList, true)] ∧
    processRow (fun _ _ => true) [⟨1, "J1".toList⟩] ("J1".toList) ("-3".toList) ≠
      RowOutcome.invalidQuantity ∧
    pyInt ("0".toList) = some 0 :=
  ⟨by decide, by decide, by decide, by decide⟩

/-- C4 (amended): the copies cell is validated only after a match is found,
as parseability as an integer (sign and zero are not checked, and the fixed
`"Invalid 'Copies' value"` note names the field rather than quoting the bad
text): a row with at least one match whose copies cell fails `int()` gets
`InvalidQuantity` with status `"Error"`, not `"Not Found"`; a row with zero
matches gets `"Not Found"` regardless of its copies cell. -/
theorem c4_quantity_amended (act : Nat → Int → Bool) (held : List QueueJob)
    (title copies : List Char) (ht : pyStrip title ≠ []) (hc : pyStrip copies ≠ []) :
    (collectMatches (normalizeSheet title) held ≠ [] → pyInt (pyStrip copies) = none →
      processRow act held title copies = RowOutcome.invalidQuantity ∧
      reportOf (pyStrip title) (processRow act held title copies) =
        some ("Error".toList, "Invalid 'Copies' value".toList)) ∧
    (collectMatches (normalizeSheet title) held = [] →
      processRow act held title copies = RowOutcome.notFound ∧
      reportOf (pyStrip title) (processRow act held title copies) =
        some ("Not Found".toList,
          "No matching Fiery jobs found for '".toList ++ pyStrip title ++ "'".toList)) := by
  constructor
  · intro hm hp
    have hrow : processRow act held title copies = RowOutcome.invalidQuantity := by
      simp only [processRow]
      rw [if_neg (not_or.mpr ⟨ht, hc⟩), if_neg hm, hp]
    exact ⟨hrow, by rw [hrow]; rfl⟩
  · intro hm
    have hrow : processRow act held title copies = RowOutcome.notFound := by
      simp only [processRow]
      rw [if_neg (not_or.mpr ⟨ht, hc⟩), if_pos hm]
    exact ⟨hrow, by rw [hrow]; rfl⟩

/-- Witness for the amended C4: a matched row with copies `"abc"` yields
`InvalidQuantity`, a row with no match yields `NotFound`. -/
theorem c4_quantity_amended_witness :
    (pyStrip ("J1".toList) ≠ [] ∧ pyStrip ("abc".toList) ≠ [] ∧
      collectMatches (normalizeSheet ("J1".toList)) [⟨1, "J1".toList⟩] ≠ [] ∧
      pyInt (pyStrip ("abc".toList)) = none ∧
      collectMatches (normalizeSheet ("ZZ".toList)) [⟨1, "J1".toList⟩] = []) ∧
    processRow (fun _ _ => true) [⟨1, "J1".toList⟩] ("J1".toList) ("abc".toList) =
      RowOutcome.invalidQuantity ∧
    processRow (fun _ _ => true) [⟨1, "J1".toList⟩] ("ZZ".toList) ("abc".toList) =
      RowOutcome.notFound :=
  ⟨⟨by decide, by decide, by decide, by decide, by decide⟩,
    ((c4_quantity_amended (fun _ _ => true) [⟨1, "J1".toList⟩] ("J1".toList) ("abc".toList)
      (by decide) (by decide)).1 (by decide) (by decide)).1,
    ((c4_quantity_amended (fun _ _ => true) [⟨1, "J1".toList⟩] ("ZZ".toList) ("abc".toList)
      (by decide) (by decide)).2 (by decide)).1⟩

/-! ## Claim C5 — per-job attempts, no short-circuit, partial failure -/

theorem listAll_map {α β : Type} (f : α → β) (l : List α) (p : β → Bool) :
    (l.map f).all p = l.all (fun a => p (f a)) := by
  induction l with
  | nil => rfl
  | cons a rest ih => simp [List.all_cons, ih]

/-- C5: once a row has matches and a parsed copy count, every matched job is
attempted in order with no short-circuit; a job succeeds iff both its
set-copies call and its print call succeed; the row outcome carries one
result per matched job; the status is `"Printed"` iff all succeeded and
`"Error (Partial/Full Failure)"` otherwise, with every job's result rendered
in the notes. -/
theorem c5_no_short_circuit (setCopiesOk : Nat → Int → Bool) (printOk : Nat → Bool)
    (held : List QueueJob) (title copies : List Char) (n : Int)
    (ht : pyStrip title ≠ []) (hc : pyStrip copies ≠ [])
    (hm : collectMatches (normalizeSheet title) held ≠ [])
    (hp : pyInt (pyStrip copies) = some n) :
    processRow (change_job_copies_and_print setCopiesOk printOk) held title copies =
      RowOutcome.processed n
        ((collectMatches (normalizeSheet title) held).all
          (fun j => setCopiesOk j.id n && printOk j.id))
        ((collectMatches (normalizeSheet title) held).map
          (fun j => (j.title, setCopiesOk j.id n && printOk j.id))) ∧
    reportOf (pyStrip title)
        (processRow (change_job_copies_and_print setCopiesOk printOk) held title copies) =
      some ((if (collectMatches (normalizeSheet title) held).all
                (fun j => setCopiesOk j.id n && printOk j.id)
             then "Printed".toList else "Error (Partial/Full Failure)".toList),
        "Processed ".toList
          ++ natChars (collectMatches (normalizeSheet title) held).length
          ++ " jobs: ".toList
          ++ List.intercalate "; ".toList
              ((collectMatches (normalizeSheet title) held).map
                (fun j => noteMsg n (j.title, setCopiesOk j.id n && printOk j.id)))) := by
  have hrow : processRow (change_job_copies_and_print setCopiesOk printOk) held title copies =
      RowOutcome.processed n
        ((collectMatches (normalizeSheet title) held).all
          (fun j => setCopiesOk j.id n && printOk j.id))
        ((collectMatches (normalizeSheet title) held).map
          (fun j => (j.title, setCopiesOk j.id n && printOk j.id))) := by
    simp only [processRow]
    rw [if_neg (not_or.mpr ⟨ht, hc⟩), if_neg hm]
    simp only [hp]
    congr 1
    rw [listAll_map]
    rfl
  refine ⟨hrow, ?_⟩
  rw [hrow]
  simp only [reportOf, List.length_map, List.map_map]
  rfl

/-- Witness for C5: two matched jobs, the second one's set-copies call fails;
both results appear, the row is a partial failure. -/
theorem c5_no_short_circuit_witness :
    (pyStrip ("J2".toList) ≠ [] ∧ pyStrip ("7".toList) ≠ [] ∧
      collectMatches (normalizeSheet ("J2".toList))
        [⟨1, "J2 a".toList⟩, ⟨2, "J2 b".toList⟩] ≠ [] ∧
      pyInt (pyStrip ("7".toList)) = some 7) ∧
    processRow (change_job_copies_and_print (fun i _ => i == 1) (fun _ => true))
        [⟨1, "J2 a".toList⟩, ⟨2, "J2 b".toList⟩] ("J2".toList) ("7".toList) =
      RowOutcome.processed 7
        ((collectMatches (normalizeSheet ("J2".toList))
          [⟨1, "J2 a".toList⟩, ⟨2, "J2 b".toList⟩]).all
            (fun j => (j.id == 1) && true))
        ((collectMatches (normalizeSheet ("J2".toList))
          [⟨1, "J2 a".toList⟩, ⟨2, "J2 b".toList⟩]).map
            (fun j => (j.title, (j.id == 1) && true))) :=
  ⟨⟨by decide, by decide, by decide, by decide⟩,
    (c5_no_short_circuit (fun i _ => i == 1) (fun _ => true)
      [⟨1, "J2 a".toList⟩, ⟨2, "J2 b".toList⟩] ("J2".toList) ("7".toList) 7
      (by decide) (by decide) (by decide) (by decide)).1⟩

/-! ## Claim C6 — skipped rows leave no trace -/

theorem rowDeviceEvents_no_write (setC : Nat → Int → Bool) (held : List QueueJob)
    (title copies : List Char) (i : Nat) (s nts : List Char) :
    Event.writeRow i s nts ∉ rowDeviceEvents setC held title copies := by
  intro h
  simp only [rowDeviceEvents] at h
  split at h
  · simp at h
  · split at h
    · simp at h
    · split at h
      · simp at h
      · rw [List.mem_flatMap] at h
        obtain ⟨j, -, hmem⟩ := h
        rw [jobEvents] at hmem
        rcases List.mem_cons.mp hmem with h1 | h1
        · cases h1
        · split at h1
          · rcases List.mem_cons.mp h1 with h2 | h2
            · cases h2
            · simp at h2
          · simp at h1

theorem writeRow_mem_rowEvents {setC : Nat → Int → Bool} {pOk : Nat → Bool}
    {held : List QueueJob} {k : Nat} {r : Row} {i : Nat} {s nts : List Char}
    (h : Event.writeRow i s nts ∈ rowEvents setC pOk held k r) :
    i = k ∧ ¬(pyStrip r.title = [] ∨ pyStrip r.copies = []) := by
  rw [rowEvents, List.mem_append] at h
  rcases h with h | h
  · exact absurd h (rowDeviceEvents_no_write setC held r.title r.copies i s nts)
  · by_cases hskip : pyStrip r.title = [] ∨ pyStrip r.copies = []
    · have hproc : processRow (change_job_copies_and_print setC pOk) held r.title r.copies =
          RowOutcome.skipped := by
        simp only [processRow]
        rw [if_pos hskip]
      rw [hproc] at h
      simp [reportOf] at h
    · refine ⟨?_, hskip⟩
      rcases hrep : reportOf (pyStrip r.title)
          (processRow (change_job_copies_and_print setC pOk) held r.title r.copies)
        with - | sn
      · rw [hrep] at h
        simp at h
      · rw [hrep] at h
        rcases List.mem_cons.mp h with h1 | h1
        · injection h1
        · simp at h1

theorem writeRow_mem_rowsEvents {setC : Nat → Int → Bool} {pOk : Nat → Bool}
    {held : List QueueJob} {rows : List Row} {k i : Nat} {s nts : List Char}
    (h : Event.writeRow i s nts ∈ rowsEvents setC pOk held k rows) :
    ∃ j, ∃ hj : j < rows.length, i = k + j ∧
      ¬(pyStrip (rows.get ⟨j, hj⟩).title = [] ∨ pyStrip (rows.get ⟨j, hj⟩).copies = []) := by
  induction rows generalizing k with
  | nil => simp [rowsEvents] at h
  | cons r rest ih =>
    rw [rowsEvents, List.mem_append] at h
    rcases h with h | h
    · obtain ⟨hik, hns⟩ := writeRow_mem_rowEvents h
      exact ⟨0, by simp, by omega, hns⟩
    · obtain ⟨j, hj, hik, hns⟩ := ih h
      exact ⟨j + 1, by simpa [Nat.succ_lt_succ_iff] using hj, by omega, hns⟩

/-- C6: a row whose stripped title or copies cell is empty is skipped: its
outcome is `Skipped`, the reporter writes nothing for it, it produces no
device call and no sheet write anywhere in the run's trace (its cells are
left unchanged). -/
theorem c6_skip_frame (env : Env) (hs : List (List Char)) (rows : List Row) (i : Nat)
    (hlt : i < rows.length) (hsheet : env.sheetData = some (hs, rows))
    (hskip : pyStrip (rows.get ⟨i, hlt⟩).title = [] ∨
      pyStrip (rows.get ⟨i, hlt⟩).copies = []) :
    (∀ (act : Nat → Int → Bool) (held : List QueueJob),
      processRow act held (rows.get ⟨i, hlt⟩).title (rows.get ⟨i, hlt⟩).copies =
        RowOutcome.skipped) ∧
    (∀ (act : Nat → Int → Bool) (held : List QueueJob),
      reportOf (pyStrip (rows.get ⟨i, hlt⟩).title)
        (processRow act held (rows.get ⟨i, hlt⟩).title (rows.get ⟨i, hlt⟩).copies) = none) ∧
    (∀ (setC : Nat → Int → Bool) (pOk : Nat → Bool) (held : List QueueJob) (k : Nat),
      rowEvents setC pOk held k (rows.get ⟨i, hlt⟩) = []) ∧
    (∀ s nts : List Char, Event.writeRow i s nts ∉ runMain env) := by
  have hproc : ∀ (act : Nat → Int → Bool) (held : List QueueJob),
      processRow act held (rows.get ⟨i, hlt⟩).title (rows.get ⟨i, hlt⟩).copies =
        RowOutcome.skipped := by
    intro act held
    simp only [processRow]
    rw [if_pos hskip]
  have hdev : ∀ (setC : Nat → Int → Bool) (held : List QueueJob),
      rowDeviceEvents setC held (rows.get ⟨i, hlt⟩).title (rows.get ⟨i, hlt⟩).copies = [] := by
    intro setC held
    simp only [rowDeviceEvents]
    rw [if_pos hskip]
  refine ⟨hproc, ?_, ?_, ?_⟩
  · intro act held
    rw [hproc]
    rfl
  · intro setC pOk held k
    rw [rowEvents, hdev, hproc]
    rfl
  · intro s nts hmem
    obtain ⟨sd, cOk, lOk, hrsp, sc, pk⟩ := env
    replace hsheet : sd = some (hs, rows) := hsheet
    subst hsheet
    rcases hres : resolvePair hs with ⟨so, no⟩
    rcases so with - | a
    · simp [runMain, runMainFull, hres] at hmem
    · rcases no with - | b
      · simp [runMain, runMainFull, hres] at hmem
      · rcases cOk with - | -
        · simp [runMain, runMainFull, hres] at hmem
        · rcases lOk with - | -
          · simp [runMain, runMainFull, hres] at hmem
          · simp only [runMain, runMainFull, hres] at hmem
            simp at hmem
            obtain ⟨j, hj, hij, hns⟩ := writeRow_mem_rowsEvents hmem
            have hji : j = i := by omega
            subst hji
            exact hns (by simpa using hskip)

/-- Witness for C6 at a concrete run: row 0 has an empty copies cell. -/
theorem c6_skip_frame_witness :
    processRow (fun _ _ => true) [⟨1, "J1".toList⟩] ("#J1 x".toList) ("".toList) =
      RowOutcome.skipped ∧
    (∀ s nts : List Char, Event.writeRow 0 s nts ∉ runMain
      { sheetData := some ([ "Job Title".toList, "Copies".toList,
          "Status".toList, "Notes".toList ],
          [⟨"#J1 x".toList, "".toList⟩, ⟨"#J1 x".toList, "2".toList⟩]),
        clearOk := true, loginOk := true, heldResp := some [⟨1, "J1".toList⟩],
        setCopiesOk := fun _ _ => true, printOk := fun _ => true }) := by
  have h := c6_skip_frame
    { sheetData := some ([ "Job Title".toList, "Copies".toList,
        "Status".toList, "Notes".toList ],
        [⟨"#J1 x".toList, "".toList⟩, ⟨"#J1 x".toList, "2".toList⟩]),
      clearOk := true, loginOk := true, heldResp := some [⟨1, "J1".toList⟩],
      setCopiesOk := fun _ _ => true, printOk := fun _ => true }
    ([ "Job Title".toList, "Copies".toList, "Status".toList, "Notes".toList ])
    ([⟨"#J1 x".toList, "".toList⟩, ⟨"#J1 x".toList, "2".toList⟩]) 0
    (by decide) rfl (by decide)
  exact ⟨h.1 (fun _ _ => true) [⟨1, "J1".toList⟩], h.2.2.2⟩

/-! ## Claim C7 — no device call before the initial clear succeeds -/

/-- C7: in every run, every event preceding the first successful
Status/Notes clearing is not a device-API call (login, held-jobs fetch,
set-copies, print); and if the initial clear fails, the whole trace contains
no device-API call — the run aborts before reaching the device. -/
theorem c7_clear_before_device (env : Env) :
    ((runMain env).takeWhile (fun e => !isClearSuccess e)).all
      (fun e => !isDeviceEvent e) = true ∧
    (env.clearOk = false → (runMain env).all (fun e => !isDeviceEvent e) = true) := by
  obtain ⟨sd, cOk, lOk, hrsp, sc, pk⟩ := env
  rcases sd with - | hsrows
  · constructor
    · simp [runMain, runMainFull, List.takeWhile, isClearSuccess, isDeviceEvent]
    · intro h
      simp [runMain, runMainFull, isDeviceEvent]
  · obtain ⟨hs, rows⟩ := hsrows
    rcases hres : resolvePair hs with ⟨so, no⟩
    rcases so with - | a
    · constructor
      · simp [runMain, runMainFull, hres, List.takeWhile, isClearSuccess, isDeviceEvent]
      · intro h
        simp [runMain, runMainFull, hres, isDeviceEvent]
    · rcases no with - | b
      · constructor
        · simp [runMain, runMainFull, hres, List.takeWhile, isClearSuccess, isDeviceEvent]
        · intro h
          simp [runMain, runMainFull, hres, isDeviceEvent]
      · rcases cOk with - | -
        · constructor
          · simp [runMain, runMainFull, hres, List.takeWhile, isClearSuccess, isDeviceEvent]
          · intro h
            simp [runMain, runMainFull, hres, isDeviceEvent, isClearSuccess]
        · rcases lOk with - | -
          · constructor
            · simp [runMain, runMainFull, hres, List.takeWhile, isClearSuccess, isDeviceEvent]
            · intro h
              cases h
          · constructor
            · simp [runMain, runMainFull, hres, List.takeWhile, isClearSuccess, isDeviceEvent]
            · intro h
              cases h

/-- Witness for C7: a run whose initial clear fails makes no device call. -/
theorem c7_clear_before_device_witness :
    ((runMain (Env.mk (some ([ "Status".toList, "Notes".toList ],
        [⟨"#J1 x".toList, "2".toList⟩])) false true (some [⟨1, "J1".toList⟩])
        (fun _ _ => true) (fun _ => true))).takeWhile
        (fun e => !isClearSuccess e)).all (fun e => !isDeviceEvent e) = true ∧
    (runMain (Env.mk (some ([ "Status".toList, "Notes".toList ],
        [⟨"#J1 x".toList, "2".toList⟩])) false true (some [⟨1, "J1".toList⟩])
        (fun _ _ => true) (fun _ => true))).all (fun e => !isDeviceEvent e) = true :=
  ⟨(c7_clear_before_device _).1, (c7_clear_before_device _).2 rfl⟩

/-! ## Claim C8 — header resolution for the Status/Notes columns -/

/-- C8 counterexample: with a header row lacking `"Status"` and `"Notes"`
(and a data row and a matching held job present), the run does *not* proceed
with default column identifiers — it stops right after the sheet fetch, with
no clearing, no login and no write. -/
theorem c8_missing_header_counterexample :
    resolvePair [ "Job Title".toList, "Copies".toList ] = (none, none) ∧
    runMain (Env.mk (some ([ "Job Title".toList, "Copies".toList ],
        [⟨"#100 x".toList, "2".toList⟩])) true true (some [⟨1, "100 x".toList⟩])
        (fun _ _ => true) (fun _ => true)) = [Event.fetchSheet true] :=
  ⟨rfl, rfl⟩

/-- C8 (amended): the Status and Notes column identifiers are resolved once
per run by scanning the fetched header row for the names `"Status"` and
`"Notes"`; when both are found the run proceeds to clear exactly those two
columns, but if either is absent the run aborts immediately after the fetch
(no fixed defaults are substituted). -/
theorem c8_header_resolution_amended (env : Env) (hs : List (List Char)) (rows : List Row)
    (hsheet : env.sheetData = some (hs, rows)) :
    (∀ a b : List Char, resolvePair hs = (some a, some b) →
      ∃ rest : List Event,
        runMain env = Event.fetchSheet true :: Event.clearCols a b env.clearOk :: rest) ∧
    (((resolvePair hs).1 = none ∨ (resolvePair hs).2 = none) →
      runMain env = [Event.fetchSheet true]) := by
  obtain ⟨sd, cOk, lOk, hrsp, sc, pk⟩ := env
  replace hsheet : sd = some (hs, rows) := hsheet
  subst hsheet
  constructor
  · intro a b hres
    rcases cOk with - | -
    · exact ⟨[], by simp [runMain, runMainFull, hres]⟩
    · rcases lOk with - | -
      · exact ⟨[Event.login false], by simp [runMain, runMainFull, hres]⟩
      · exact ⟨Event.login true :: Event.fetchHeld ::
          rowsEvents sc pk (get_held_jobs hrsp) 0 rows, by simp [runMain, runMainFull, hres]⟩
  · intro hnone
    rcases hres : resolvePair hs with ⟨so, no⟩
    rw [hres] at hnone
    rcases so with - | a
    · simp [runMain, runMainFull, hres]
    · rcases no with - | b
      · simp [runMain, runMainFull, hres]
      · simp at hnone

/-- Witness for the amended C8: headers `["Job Title","Copies","Status","Notes"]`
resolve to columns `C` and `D` and the run proceeds to the clear step;
headers missing `"Notes"` abort the run. -/
theorem c8_header_resolution_amended_witness :
    (resolvePair [ "Job Title".toList, "Copies".toList, "Status".toList, "Notes".toList ] =
      (some ['C'], some ['D']) ∧
      ∃ rest : List Event,
        runMain (Env.mk (some ([ "Job Title".toList, "Copies".toList,
            "Status".toList, "Notes".toList ], [⟨"#100 x".toList, "2".toList⟩])) true true
            (some [⟨1, "100 x".toList⟩]) (fun _ _ => true) (fun _ => true)) =
          Event.fetchSheet true :: Event.clearCols ['C'] ['D'] true :: rest) ∧
    runMain (Env.mk (some ([ "Job Title".toList, "Copies".toList, "Status".toList ],
        [⟨"#100 x".toList, "2".toList⟩])) true true
        (some [⟨1, "100 x".toList⟩]) (fun _ _ => true) (fun _ => true)) =
      [Event.fetchSheet true] :=
  ⟨⟨by decide,
    (c8_header_resolution_amended _ _ _ rfl).1 ['C'] ['D'] (by decide)⟩,
    (c8_header_resolution_amended _ _ _ rfl).2 (Or.inr (by decide))⟩

/-! ## Claim C9 — the deferred cleanup task -/

/-- C9: the deferred cleanup task sleeps a fixed 5 minutes (300 seconds)
first, re-acquires its own data-source handle, clears exactly the five
pre-declared columns D, E, L, M, O from row 2 down (open-ended ranges), and
every failure of re-acquisition or clearing is caught inside: on every
oracle outcome the task terminates with `ok` and the main pass's trace is
unchanged by (and independent of) the cleanup oracles. -/
theorem c9_cleanup_isolated (env : Env) (acquireOk clearOk acquireOk2 clearOk2 : Bool) :
    (clear_sheet_columns_after_delay_thread acquireOk clearOk SHEET_NAME columns_to_clear 5).1 =
      Except.ok () ∧
    (clear_sheet_columns_after_delay_thread acquireOk clearOk SHEET_NAME
      columns_to_clear 5).2.head? = some (CEvent.sleep 300) ∧
    (acquireOk = true →
      (clear_sheet_columns_after_delay_thread acquireOk clearOk SHEET_NAME
        columns_to_clear 5).2 =
        [CEvent.sleep 300, CEvent.acquireService true,
          CEvent.batchClear
            [ "Print Jobs!D2:D".toList, "Print Jobs!E2:E".toList, "Print Jobs!L2:L".toList,
              "Print Jobs!M2:M".toList, "Print Jobs!O2:O".toList ] clearOk]) ∧
    (mainAndCleanup env acquireOk clearOk).1 = runMain env ∧
    (mainAndCleanup env acquireOk clearOk).1 = (mainAndCleanup env acquireOk2 clearOk2).1 := by
  refine ⟨?_, ?_, ?_, rfl, rfl⟩
  · rcases acquireOk with - | - <;> rcases clearOk with - | - <;> rfl
  · rcases acquireOk with - | - <;> rcases clearOk with - | - <;> rfl
  · intro h
    subst h
    rcases clearOk with - | - <;> decide

/-- Witness for C9: with the re-acquired handle working but the clearing
call failing, the task still ends `ok` and its trace shows the caught
failure on exactly the five fixed ranges. -/
theorem c9_cleanup_isolated_witness :
    (clear_sheet_columns_after_delay_thread true false SHEET_NAME columns_to_clear 5).1 =
      Except.ok () ∧
    (clear_sheet_columns_after_delay_thread true false SHEET_NAME columns_to_clear 5).2 =
      [CEvent.sleep 300, CEvent.acquireService true,
        CEvent.batchClear
          [ "Print Jobs!D2:D".toList, "Print Jobs!E2:E".toList, "Print Jobs!L2:L".toList,
            "Print Jobs!M2:M".toList, "Print Jobs!O2:O".toList ] false] :=
  ⟨(c9_cleanup_isolated (Env.mk none true true none (fun _ _ => true) (fun _ => true))
      true false false true).1,
    (c9_cleanup_isolated (Env.mk none true true none (fun _ _ => true) (fun _ => true))
      true false false true).2.2.1 rfl⟩

/-! ## Claim C10 — held-jobs fetch failure degrades to per-row Not Found -/

theorem notFound_write_mem_rowsEvents (setC : Nat → Int → Bool) (pOk : Nat → Bool)
    (rows : List Row) (k i : Nat) (hi : i < rows.length)
    (hns : ¬(pyStrip (rows.get ⟨i, hi⟩).title = [] ∨
      pyStrip (rows.get ⟨i, hi⟩).copies = [])) :
    Event.writeRow (k + i) ("Not Found".toList)
      ("No matching Fiery jobs found for '".toList ++ pyStrip (rows.get ⟨i, hi⟩).title
        ++ "'".toList) ∈ rowsEvents setC pOk [] k rows := by
  induction rows generalizing k i with
  | nil => exact absurd hi (by simp)
  | cons r rest ih =>
    rcases i with - | j
    · rw [rowsEvents, List.mem_append]
      left
      have hproc : processRow (change_job_copies_and_print setC pOk) [] r.title r.copies =
          RowOutcome.notFound := by
        simp only [processRow]
        rw [if_neg (by simpa using hns), if_pos (collectMatches_nil (normalizeSheet r.title))]
      have hdev : rowDeviceEvents setC [] r.title r.copies = [] := by
        simp only [rowDeviceEvents]
        rw [if_neg (by simpa using hns), if_pos (collectMatches_nil (normalizeSheet r.title))]
      rw [rowEvents, hdev, hproc]
      simp [reportOf]
    · rw [rowsEvents, List.mem_append]
      right
      have harith : k + (j + 1) = (k + 1) + j := by omega
      rw [harith]
      exact ih (k + 1) j (by simp only [List.length_cons] at hi; omega) (by simpa using hns)

/-- C10: a failed held-jobs fetch returns `[]`, indistinguishable from an
empty queue; the run continues past it (login, fetch, and the whole row loop
still appear in the trace), every non-skipped row matches nothing against
the empty snapshot, and each such row gets a `"Not Found"` write naming its
title. -/
theorem c10_held_failure_notfound (env : Env) (hs : List (List Char)) (rows : List Row)
    (a b : List Char) (hsheet : env.sheetData = some (hs, rows))
    (hheld : env.heldResp = none) (hres : resolvePair hs = (some a, some b))
    (hclear : env.clearOk = true) (hlogin : env.loginOk = true) :
    get_held_jobs env.heldResp = [] ∧
    get_held_jobs env.heldResp = get_held_jobs (some []) ∧
    runMain env = Event.fetchSheet true :: Event.clearCols a b true :: Event.login true ::
      Event.fetchHeld :: rowsEvents env.setCopiesOk env.printOk [] 0 rows ∧
    (∀ (act : Nat → Int → Bool) (title copies : List Char),
      pyStrip title ≠ [] → pyStrip copies ≠ [] →
      processRow act [] title copies = RowOutcome.notFound) ∧
    (∀ i, ∀ hi : i < rows.length,
      ¬(pyStrip (rows.get ⟨i, hi⟩).title = [] ∨ pyStrip (rows.get ⟨i, hi⟩).copies = []) →
      Event.writeRow i ("Not Found".toList)
        ("No matching Fiery jobs found for '".toList ++ pyStrip (rows.get ⟨i, hi⟩).title
          ++ "'".toList) ∈ runMain env) := by
  obtain ⟨sd, cOk, lOk, hrsp, sc, pk⟩ := env
  replace hsheet : sd = some (hs, rows) := hsheet
  replace hheld : hrsp = none := hheld
  replace hclear : cOk = true := hclear
  replace hlogin : lOk = true := hlogin
  subst hsheet hheld hclear hlogin
  have hrm : runMain (Env.mk (some (hs, rows)) true true none sc pk) =
      Event.fetchSheet true :: Event.clearCols a b true :: Event.login true ::
        Event.fetchHeld :: rowsEvents sc pk [] 0 rows := by
    simp [runMain, runMainFull, hres, get_held_jobs]
  refine ⟨rfl, rfl, hrm, ?_, ?_⟩
  · intro act title copies ht hc
    simp only [processRow]
    rw [if_neg (not_or.mpr ⟨ht, hc⟩), if_pos (collectMatches_nil (normalizeSheet title))]
  · intro i hi hns
    have hmem := notFound_write_mem_rowsEvents sc pk rows 0 i hi hns
    rw [Nat.zero_add] at hmem
    rw [hrm]
    exact List.mem_cons_of_mem _ (List.mem_cons_of_mem _ (List.mem_cons_of_mem _
      (List.mem_cons_of_mem _ hmem)))

/-- Witness for C10: one non-skipped row, device listing failed; the row is
reported `"Not Found"`. -/
theorem c10_held_failure_notfound_witness :
    get_held_jobs (none : Option (List QueueJob)) = [] ∧
    Event.writeRow 0 ("Not Found".toList)
      ("No matching Fiery jobs found for '".toList ++ pyStrip ("#55 x".toList)
        ++ "'".toList) ∈
      runMain (Env.mk (some ([ "Job Title".toList, "Copies".toList, "Status".toList,
        "Notes".toList ], [⟨"#55 x".toList, "2".toList⟩])) true true none
        (fun _ _ => true) (fun _ => true)) :=
  ⟨(c10_held_failure_notfound (Env.mk (some ([ "Job Title".toList, "Copies".toList,
      "Status".toList, "Notes".toList ], [⟨"#55 x".toList, "2".toList⟩])) true true none
      (fun _ _ => true) (fun _ => true)) _ _ ['C'] ['D'] rfl rfl (by decide) rfl rfl).1,
    (c10_held_failure_notfound (Env.mk (some ([ "Job Title".toList, "Copies".toList,
      "Status".toList, "Notes".toList ], [⟨"#55 x".toList, "2".toList⟩])) true true none
      (fun _ _ => true) (fun _ => true)) _ _ ['C'] ['D'] rfl rfl (by decide) rfl rfl).2.2.2.2
      0 (by decide) (by decide)⟩

end FieryAutomation
